import Mathlib

/-!
Verification of the statement-node family of `libcst/_nodes/statement_spanish.py`
(the Spanish statement variants `Aumenta`, `Continua`, `Devuelve`, `Rompe`,
mirroring raise / continue / return / break).

The four statement classes, their `_validate`, `_visit_and_replace_children`
and `_codegen_impl` methods are translated directly from
`src/libcst/_nodes/statement_spanish.py`.  The shared infrastructure they use
(`SimpleWhitespace`, `MaybeSentinel`, `Semicolon`, `From`, `CodegenState`,
`visit_optional`, `visit_sentinel`, the expression capability, and the parser
entrypoint) lives outside `src/` and is modelled from the spec; each such
definition carries a doc comment saying so.

Python strings are embedded as Lean `String`; the dataclass construction that
runs `_validate` (the `__post_init__` hook of the node base class) is embedded
as a fallible smart constructor `construct` returning `Except String node`.
Code generation is embedded in the same `Except String` error channel so that
"rendering never fails" is a statement about the code, not about the embedding.
The class `Continúa` is named `Continua` here because Lean identifiers do not
admit the accented character.
-/

namespace SpanishCST

/-- Modelled from the spec: a whitespace value wraps a literal run of
space/tab characters and answers `is-empty?` (`SimpleWhitespace` of
`libcst._nodes.whitespace`, not under `src/`). -/
structure SimpleWhitespace where
  value : String
deriving DecidableEq, Repr

/-- Modelled from the spec: the `empty` query of a whitespace value. -/
def SimpleWhitespace.empty (w : SimpleWhitespace) : Bool :=
  w.value = ""

/-- Side marker for the adjacency-safety query (`ExpressionPosition` of
`libcst._nodes.expression`). -/
inductive ExpressionPosition where
  | LEFT
  | RIGHT
deriving DecidableEq, Repr

/-- Modelled from the spec: the expression capability consumed by the
statement family — "can render itself" (a code string appended to the
accumulator) and "can report whether it is safe to sit adjacent to a keyword
without an intervening space" on either side.  Concrete expression kinds are
out of scope, so an expression is its rendered code plus its two safety
answers. -/
structure BaseExpression where
  code : String
  safeLeft : Bool
  safeRight : Bool
deriving DecidableEq, Repr

/-- Modelled from the spec: `_safe_to_use_with_word_operator` of the
expression capability. -/
def BaseExpression.safe_to_use_with_word_operator
    (e : BaseExpression) (position : ExpressionPosition) : Bool :=
  match position with
  | .LEFT => e.safeLeft
  | .RIGHT => e.safeRight

/-- Modelled from the spec: the `Union[SimpleWhitespace, MaybeSentinel]` slot
type — "absent, use default rendering" (`MaybeSentinel.DEFAULT`) versus an
explicit whitespace value. -/
inductive WsOrSentinel where
  | DEFAULT
  | ws (w : SimpleWhitespace)
deriving DecidableEq, Repr

/-- Modelled from the spec: the optional trailing separator token
(`Semicolon` of `libcst._nodes.op`, not under `src/`); it owns the
whitespace on both sides of it. -/
structure Semicolon where
  whitespace_before : SimpleWhitespace
  whitespace_after : SimpleWhitespace
deriving DecidableEq, Repr

/-- Modelled from the spec: the `Union[Semicolon, MaybeSentinel]` slot type. -/
inductive SemicolonOrSentinel where
  | DEFAULT
  | semi (s : Semicolon)
deriving DecidableEq, Repr

/-- Modelled from the spec: the codegen state is a mutable output accumulator
(token buffer) passed through the regeneration pass; `add_token` appends one
token.  Position tracking (`record_syntactic_position`) writes no tokens and
is elided. -/
structure CodegenState where
  tokens : List String
deriving DecidableEq, Repr

/-- Modelled from the spec: `CodegenState.add_token`. -/
def CodegenState.add_token (state : CodegenState) (t : String) : CodegenState :=
  ⟨state.tokens ++ [t]⟩

/-- The text accumulated in the state, as the characters of its tokens in
order. -/
def CodegenState.output (state : CodegenState) : List Char :=
  (state.tokens.map String.data).flatten

/-- Modelled from the spec: `SimpleWhitespace._codegen` emits the stored run
verbatim. -/
def SimpleWhitespace.codegen (w : SimpleWhitespace) (state : CodegenState) :
    Except String CodegenState :=
  .ok (state.add_token w.value)

/-- Modelled from the spec: `BaseExpression._codegen` — the expression renders
itself into the accumulator. -/
def BaseExpression.codegen (e : BaseExpression) (state : CodegenState) :
    Except String CodegenState :=
  .ok (state.add_token e.code)

/-- Modelled from the spec: `Semicolon._codegen` renders the separator
verbatim: the whitespace it owns on the left, the `";"` token, then the
whitespace it owns on the right. -/
def Semicolon.codegen (s : Semicolon) (state : CodegenState) :
    Except String CodegenState := do
  let state ← s.whitespace_before.codegen state
  let state := state.add_token ";"
  s.whitespace_after.codegen state

/-- Modelled from the spec: the `from cause` clause (`From` of
`libcst._nodes.expression`, not under `src/`) wrapping a second expression,
with whitespace slots before and after the `from` keyword.  Rendering takes a
`default_space` used when a slot holds the sentinel, so the renderer "is
guaranteed to insert a safe separator when needed". -/
structure From where
  item : BaseExpression
  whitespace_before_from : WsOrSentinel := .DEFAULT
  whitespace_after_from : WsOrSentinel := .DEFAULT
deriving DecidableEq, Repr

/-- Modelled from the spec: `From._codegen` with a caller-supplied
`default_space`. -/
def From.codegen (f : From) (state : CodegenState) (default_space : String) :
    Except String CodegenState := do
  let state ← match f.whitespace_before_from with
    | .DEFAULT => pure (state.add_token default_space)
    | .ws w => w.codegen state
  let state := state.add_token "from"
  let state ← match f.whitespace_after_from with
    | .DEFAULT => pure (state.add_token default_space)
    | .ws w => w.codegen state
  f.item.codegen state

/-- Modelled from the spec: the visitor protocol, restricted to the child
kinds the statement family owns.  Each handler may return the same child, a
different child, or `none`, the "remove this child" signal. -/
structure Visitor where
  onExpr : BaseExpression → Option BaseExpression
  onFrom : From → Option From
  onWs : SimpleWhitespace → Option SimpleWhitespace
  onSemicolon : Semicolon → Option Semicolon

/-- Modelled from the spec: the `visit_optional` helper of
`libcst._nodes.internal` — an absent slot is left absent, a present child is
visited and may be removed. -/
def visit_optional {α : Type} (v : α → Option α) : Option α → Option α
  | none => none
  | some x => v x

/-- Modelled from the spec: the `visit_sentinel` helper for a whitespace
slot — a sentinel is left alone, a concrete child is visited and removal
turns the slot back into the sentinel. -/
def visit_sentinel_ws (v : SimpleWhitespace → Option SimpleWhitespace) :
    WsOrSentinel → WsOrSentinel
  | .DEFAULT => .DEFAULT
  | .ws w =>
    match v w with
    | none => .DEFAULT
    | some w' => .ws w'

/-- Modelled from the spec: the `visit_sentinel` helper for a semicolon
slot. -/
def visit_sentinel_semi (v : Semicolon → Option Semicolon) :
    SemicolonOrSentinel → SemicolonOrSentinel
  | .DEFAULT => .DEFAULT
  | .semi s =>
    match v s with
    | none => .DEFAULT
    | some s' => .semi s'

-- Raise

/-- A `aumenta exc` or `aumenta exc from cause` statement
(`Aumenta` of `statement_spanish.py`). -/
structure Aumenta where
  exc : Option BaseExpression := none
  cause : Option From := none
  whitespace_after_aumenta : WsOrSentinel := .DEFAULT
  semicolon : SemicolonOrSentinel := .DEFAULT
deriving DecidableEq, Repr

/-- `Aumenta._validate`, translated clause by clause from the source. -/
def Aumenta.validate (self : Aumenta) : Except String Unit := do
  -- Validate correct construction
  if self.exc = none ∧ self.cause ≠ none then
    throw "Must have an 'exc' when specifying 'clause'. on Aumenta."
  -- Validate spacing between "aumenta" and "exc"
  match self.exc with
  | none => pure ()
  | some exc =>
    let has_no_gap :=
      match self.whitespace_after_aumenta with
      | .DEFAULT => false
      | .ws w => w.empty
    if has_no_gap && !exc.safe_to_use_with_word_operator .RIGHT then
      throw "Must have at least one space after 'aumenta'."
  -- Validate spacing between "exc" and "from"
  match self.exc, self.cause with
  | some exc, some cause =>
    let has_no_gap :=
      match cause.whitespace_before_from with
      | .DEFAULT => false
      | .ws w => w.empty
    if has_no_gap && !exc.safe_to_use_with_word_operator .LEFT then
      throw "Must have at least one space before 'from'."
  | _, _ => pure ()

/-- Dataclass construction of `Aumenta`: build the frozen record and run
`_validate`; a failed validation prevents the node from coming into
existence. -/
def Aumenta.construct (exc : Option BaseExpression) (cause : Option From)
    (whitespace_after_aumenta : WsOrSentinel)
    (semicolon : SemicolonOrSentinel) : Except String Aumenta := do
  let node : Aumenta := ⟨exc, cause, whitespace_after_aumenta, semicolon⟩
  node.validate
  return node

/-- `Aumenta._visit_and_replace_children`: rebuild the node from the visited
slot values through the validating constructor. -/
def Aumenta.visit_and_replace_children (self : Aumenta) (visitor : Visitor) :
    Except String Aumenta :=
  Aumenta.construct
    (visit_optional visitor.onExpr self.exc)
    (visit_optional visitor.onFrom self.cause)
    (visit_sentinel_ws visitor.onWs self.whitespace_after_aumenta)
    (visit_sentinel_semi visitor.onSemicolon self.semicolon)

/-- `Aumenta._codegen_impl`, translated statement by statement from the
source. -/
def Aumenta.codegen_impl (self : Aumenta) (state : CodegenState)
    (default_semicolon : Bool) : Except String CodegenState := do
  let exc := self.exc
  let cause := self.cause
  let state := state.add_token "aumenta"
  let state ← match self.whitespace_after_aumenta with
    | .DEFAULT =>
      match exc with
      | some _ => pure (state.add_token " ")
      | none => pure state
    | .ws w => w.codegen state
  let state ← match exc with
    | some e => e.codegen state
    | none => pure state
  let state ← match cause with
    | some c => c.codegen state " "
    | none => pure state
  match self.semicolon with
  | .DEFAULT =>
    if default_semicolon then pure (state.add_token "; ") else pure state
  | .semi s => s.codegen state

-- Continue

/-- Represents a `continúa` statement (`Continúa` of
`statement_spanish.py`). -/
structure Continua where
  semicolon : SemicolonOrSentinel := .DEFAULT
deriving DecidableEq, Repr

/-- Dataclass construction of `Continua`; the class declares no `_validate`,
so construction always succeeds. -/
def Continua.construct (semicolon : SemicolonOrSentinel) :
    Except String Continua :=
  return ⟨semicolon⟩

/-- `Continúa._visit_and_replace_children`. -/
def Continua.visit_and_replace_children (self : Continua) (visitor : Visitor) :
    Except String Continua :=
  Continua.construct (visit_sentinel_semi visitor.onSemicolon self.semicolon)

/-- `Continúa._codegen_impl`. -/
def Continua.codegen_impl (self : Continua) (state : CodegenState)
    (default_semicolon : Bool) : Except String CodegenState := do
  let state := state.add_token "continúa"
  match self.semicolon with
  | .DEFAULT =>
    if default_semicolon then pure (state.add_token "; ") else pure state
  | .semi s => s.codegen state

-- Return

/-- Represents a `devuelve` or a `devuelve x` statement (`Devuelve` of
`statement_spanish.py`). -/
structure Devuelve where
  value : Option BaseExpression := none
  whitespace_after_devuelve : WsOrSentinel := .DEFAULT
  semicolon : SemicolonOrSentinel := .DEFAULT
deriving DecidableEq, Repr

/-- `Devuelve._validate`, translated from the source. -/
def Devuelve.validate (self : Devuelve) : Except String Unit := do
  match self.value with
  | none => pure ()
  | some value =>
    let has_no_gap :=
      match self.whitespace_after_devuelve with
      | .DEFAULT => false
      | .ws w => w.empty
    if has_no_gap && !value.safe_to_use_with_word_operator .RIGHT then
      throw "Must have at least one space after 'devuelve'."

/-- Dataclass construction of `Devuelve`: build the record and run
`_validate`. -/
def Devuelve.construct (value : Option BaseExpression)
    (whitespace_after_devuelve : WsOrSentinel)
    (semicolon : SemicolonOrSentinel) : Except String Devuelve := do
  let node : Devuelve := ⟨value, whitespace_after_devuelve, semicolon⟩
  node.validate
  return node

/-- `Devuelve._visit_and_replace_children`. -/
def Devuelve.visit_and_replace_children (self : Devuelve) (visitor : Visitor) :
    Except String Devuelve :=
  Devuelve.construct
    (visit_optional visitor.onExpr self.value)
    (visit_sentinel_ws visitor.onWs self.whitespace_after_devuelve)
    (visit_sentinel_semi visitor.onSemicolon self.semicolon)

/-- `Devuelve._codegen_impl`, translated statement by statement from the
source. -/
def Devuelve.codegen_impl (self : Devuelve) (state : CodegenState)
    (default_semicolon : Bool) : Except String CodegenState := do
  let state := state.add_token "devuelve"
  let value := self.value
  let state ← match self.whitespace_after_devuelve with
    | .DEFAULT =>
      match value with
      | some _ => pure (state.add_token " ")
      | none => pure state
    | .ws w => w.codegen state
  let state ← match value with
    | some v => v.codegen state
    | none => pure state
  match self.semicolon with
  | .DEFAULT =>
    if default_semicolon then pure (state.add_token "; ") else pure state
  | .semi s => s.codegen state

-- Break

/-- Represents a `rompe` statement (`Rompe` of `statement_spanish.py`). -/
structure Rompe where
  semicolon : SemicolonOrSentinel := .DEFAULT
deriving DecidableEq, Repr

/-- Dataclass construction of `Rompe`; no `_validate` is declared. -/
def Rompe.construct (semicolon : SemicolonOrSentinel) : Except String Rompe :=
  return ⟨semicolon⟩

/-- `Rompe._visit_and_replace_children`. -/
def Rompe.visit_and_replace_children (self : Rompe) (visitor : Visitor) :
    Except String Rompe :=
  Rompe.construct (visit_sentinel_semi visitor.onSemicolon self.semicolon)

/-- `Rompe._codegen_impl`. -/
def Rompe.codegen_impl (self : Rompe) (state : CodegenState)
    (default_semicolon : Bool) : Except String CodegenState := do
  let state := state.add_token "rompe"
  match self.semicolon with
  | .DEFAULT =>
    if default_semicolon then pure (state.add_token "; ") else pure state
  | .semi s => s.codegen state

/-- The closed statement family covered by this slice of the node model. -/
inductive Stmt where
  | aumenta (a : Aumenta)
  | continua (c : Continua)
  | devuelve (d : Devuelve)
  | rompe (r : Rompe)
deriving DecidableEq, Repr

/-- Dispatch of `_codegen_impl` over the statement family. -/
def Stmt.codegen_impl (self : Stmt) (state : CodegenState)
    (default_semicolon : Bool) : Except String CodegenState :=
  match self with
  | .aumenta a => a.codegen_impl state default_semicolon
  | .continua c => c.codegen_impl state default_semicolon
  | .devuelve d => d.codegen_impl state default_semicolon
  | .rompe r => r.codegen_impl state default_semicolon

/-- The semicolon slot of a statement, shared by all four variants. -/
def Stmt.semicolon : Stmt → SemicolonOrSentinel
  | .aumenta a => a.semicolon
  | .continua c => c.semicolon
  | .devuelve d => d.semicolon
  | .rompe r => r.semicolon

end SpanishCST

namespace SpanishCST

/-- Modelled from the spec: a character of a plain whitespace run (space or
tab). -/
def isWsChar (c : Char) : Bool :=
  c = ' ' || c = '\t'

/-- Modelled from the spec: a character of an identifier expression token.
Concrete expression grammar is out of scope; the parser slice reads a maximal
alphanumeric/underscore run as one expression. -/
def isIdentChar (c : Char) : Bool :=
  c.isAlphanum || c = '_'

/-- Modelled from the spec: parse the optional trailing terminator of a simple
statement.  An empty remainder leaves the slot as the sentinel; otherwise the
remainder must be whitespace, a `";"`, and trailing whitespace, stored as an
explicit `Semicolon` owning the whitespace on both sides. -/
def parseSemiOpt (cs : List Char) : Option SemicolonOrSentinel :=
  match cs with
  | [] => some .DEFAULT
  | _ =>
    match cs.dropWhile isWsChar with
    | c :: r2 =>
      if c = ';' then
        if r2.dropWhile isWsChar = [] then
          some (.semi ⟨⟨String.mk (cs.takeWhile isWsChar)⟩,
            ⟨String.mk (r2.takeWhile isWsChar)⟩⟩)
        else none
      else none
    | [] => none

/-- Modelled from the spec: parse the cause expression and terminator of an
`aumenta ... from ...` statement, given the whitespace `w1` after the
keyword, the exc token `e`, the whitespace `w2` before `from` and the
remainder `r4` after the `from` token, and build the node through the
validating constructor. -/
def parseAumentaCause (w1 e w2 r4 : List Char) : Option Aumenta :=
  if r4.takeWhile isWsChar = [] then none
  else if (r4.dropWhile isWsChar).takeWhile isIdentChar = [] then none
  else
    match parseSemiOpt ((r4.dropWhile isWsChar).dropWhile isIdentChar) with
    | some semi =>
      (Aumenta.construct (some ⟨String.mk e, false, false⟩)
        (some ⟨⟨String.mk ((r4.dropWhile isWsChar).takeWhile isIdentChar),
            false, false⟩,
          .ws ⟨String.mk w2⟩, .ws ⟨String.mk (r4.takeWhile isWsChar)⟩⟩)
        (.ws ⟨String.mk w1⟩) semi).toOption
    | none => none

/-- Modelled from the spec: parse the optional `from cause` clause and the
terminator that follow the exc token of an `aumenta` statement, given the
whitespace `w1` after the keyword, the exc token `e` and the remainder
`r2`. -/
def parseAumentaFrom (w1 e r2 : List Char) : Option Aumenta :=
  if (r2.dropWhile isWsChar).takeWhile isIdentChar = "from".data then
    if r2.takeWhile isWsChar = [] then none
    else
      parseAumentaCause w1 e (r2.takeWhile isWsChar)
        ((r2.dropWhile isWsChar).dropWhile isIdentChar)
  else if (r2.dropWhile isWsChar).takeWhile isIdentChar = [] then
    match parseSemiOpt r2 with
    | some semi =>
      (Aumenta.construct (some ⟨String.mk e, false, false⟩) none
        (.ws ⟨String.mk w1⟩) semi).toOption
    | none => none
  else none

/-- Modelled from the spec: parse what follows the `aumenta` keyword — an
optional expression (preceded by mandatory whitespace, stored explicitly),
an optional `from cause` clause, and the optional terminator — and build the
node through the validating constructor. -/
def parseAumentaRest (cs : List Char) : Option Aumenta :=
  match cs with
  | [] => (Aumenta.construct none none .DEFAULT .DEFAULT).toOption
  | _ =>
    if (cs.dropWhile isWsChar).takeWhile isIdentChar = [] then
      match parseSemiOpt cs with
      | some semi => (Aumenta.construct none none .DEFAULT semi).toOption
      | none => none
    else if cs.takeWhile isWsChar = [] then none
    else
      parseAumentaFrom (cs.takeWhile isWsChar)
        ((cs.dropWhile isWsChar).takeWhile isIdentChar)
        ((cs.dropWhile isWsChar).dropWhile isIdentChar)

/-- Modelled from the spec: parse what follows the `devuelve` keyword. -/
def parseDevuelveRest (cs : List Char) : Option Devuelve :=
  match cs with
  | [] => (Devuelve.construct none .DEFAULT .DEFAULT).toOption
  | _ =>
    if (cs.dropWhile isWsChar).takeWhile isIdentChar = [] then
      match parseSemiOpt cs with
      | some semi => (Devuelve.construct none .DEFAULT semi).toOption
      | none => none
    else if cs.takeWhile isWsChar = [] then none
    else
      match parseSemiOpt ((cs.dropWhile isWsChar).dropWhile isIdentChar) with
      | some semi =>
        (Devuelve.construct
          (some ⟨String.mk ((cs.dropWhile isWsChar).takeWhile isIdentChar),
            false, false⟩)
          (.ws ⟨String.mk (cs.takeWhile isWsChar)⟩) semi).toOption
      | none => none

/-- Modelled from the spec: parse what follows the `continúa` keyword. -/
def parseContinuaRest (cs : List Char) : Option Continua :=
  match parseSemiOpt cs with
  | some semi => (Continua.construct semi).toOption
  | none => none

/-- Modelled from the spec: parse what follows the `rompe` keyword. -/
def parseRompeRest (cs : List Char) : Option Rompe :=
  match parseSemiOpt cs with
  | some semi => (Rompe.construct semi).toOption
  | none => none

/-- Modelled from the spec: the collaborator `parse` entrypoint
(`parse_module` is only re-exported under `src/`), restricted to the
statement slice this spec covers — one simple statement of one of the four
kinds.  Every piece of interstitial text is stored as explicit formatting so
that regeneration is byte-identical. -/
def parse (cs : List Char) : Option Stmt :=
  if cs.take 7 = "aumenta".data then
    (parseAumentaRest (cs.drop 7)).map .aumenta
  else if cs.take 8 = "continúa".data then
    (parseContinuaRest (cs.drop 8)).map .continua
  else if cs.take 8 = "devuelve".data then
    (parseDevuelveRest (cs.drop 8)).map .devuelve
  else if cs.take 5 = "rompe".data then
    (parseRompeRest (cs.drop 5)).map .rompe
  else none

/-- Modelled from the spec: `render_to_string` — render the tree into a fresh
accumulator (a lone statement, so `default_semicolon` is `false`) and read
back the accumulated text. -/
def render_to_string (n : Stmt) : Except String (List Char) :=
  (n.codegen_impl ⟨[]⟩ false).map CodegenState.output

end SpanishCST

namespace SpanishCST

theorem aumenta_construct_eq (exc : Option BaseExpression) (cause : Option From)
    (ws : WsOrSentinel) (semi : SemicolonOrSentinel) :
    Aumenta.construct exc cause ws semi =
      (Aumenta.validate ⟨exc, cause, ws, semi⟩).map
        (fun _ => (⟨exc, cause, ws, semi⟩ : Aumenta)) := by
  unfold Aumenta.construct
  cases h : Aumenta.validate ⟨exc, cause, ws, semi⟩ <;>
    simp [h, Except.map, Bind.bind, Except.bind, Pure.pure, Except.pure]

theorem devuelve_construct_eq (value : Option BaseExpression)
    (ws : WsOrSentinel) (semi : SemicolonOrSentinel) :
    Devuelve.construct value ws semi =
      (Devuelve.validate ⟨value, ws, semi⟩).map
        (fun _ => (⟨value, ws, semi⟩ : Devuelve)) := by
  unfold Devuelve.construct
  cases h : Devuelve.validate ⟨value, ws, semi⟩ <;>
    simp [h, Except.map, Bind.bind, Except.bind, Pure.pure, Except.pure]

theorem aumenta_validate_no_exc (cause : From) (ws : WsOrSentinel)
    (semi : SemicolonOrSentinel) :
    Aumenta.validate ⟨none, some cause, ws, semi⟩ =
      .error "Must have an 'exc' when specifying 'clause'. on Aumenta." := rfl

theorem aumenta_construct_none_some (cause : From) (ws : WsOrSentinel)
    (semi : SemicolonOrSentinel) :
    Aumenta.construct none (some cause) ws semi =
      .error "Must have an 'exc' when specifying 'clause'. on Aumenta." := by
  rw [aumenta_construct_eq, aumenta_validate_no_exc]
  rfl

theorem aumenta_validate_empty_gap (e : BaseExpression) (w : SimpleWhitespace)
    (semi : SemicolonOrSentinel) (hw : w.empty = true)
    (hsafe : e.safe_to_use_with_word_operator .RIGHT = false) :
    Aumenta.validate ⟨some e, none, .ws w, semi⟩ =
      .error "Must have at least one space after 'aumenta'." := by
  simp [Aumenta.validate, hw, hsafe, throw, throwThe, MonadExceptOf.throw]

theorem aumenta_validate_ok_nonempty (e : BaseExpression) (w : SimpleWhitespace)
    (semi : SemicolonOrSentinel) (hw : w.empty = false) :
    Aumenta.validate ⟨some e, none, .ws w, semi⟩ = .ok () := by
  simp [Aumenta.validate, hw, Pure.pure, Except.pure, Bind.bind, Except.bind]

theorem aumenta_validate_ok_sentinel (e : BaseExpression)
    (semi : SemicolonOrSentinel) :
    Aumenta.validate ⟨some e, none, .DEFAULT, semi⟩ = .ok () := rfl

end SpanishCST

namespace SpanishCST

theorem aumenta_validate_before_from_error (e : BaseExpression) (c : From)
    (wbf : SimpleWhitespace) (semi : SemicolonOrSentinel)
    (hc : c.whitespace_before_from = .ws wbf) (hw : wbf.empty = true)
    (hsafe : e.safe_to_use_with_word_operator .LEFT = false) :
    Aumenta.validate ⟨some e, some c, .DEFAULT, semi⟩ =
      .error "Must have at least one space before 'from'." := by
  simp [Aumenta.validate, hc, hw, hsafe, throw, throwThe, MonadExceptOf.throw,
    Bind.bind, Except.bind, Pure.pure, Except.pure]

theorem aumenta_validate_before_from_ok (e : BaseExpression) (c : From)
    (wbf : SimpleWhitespace) (semi : SemicolonOrSentinel)
    (hc : c.whitespace_before_from = .ws wbf) (hw : wbf.empty = false) :
    Aumenta.validate ⟨some e, some c, .DEFAULT, semi⟩ = .ok () := by
  simp [Aumenta.validate, hc, hw, Bind.bind, Except.bind, Pure.pure,
    Except.pure]

theorem aumenta_validate_before_from_sentinel (e : BaseExpression) (c : From)
    (semi : SemicolonOrSentinel) (hc : c.whitespace_before_from = .DEFAULT) :
    Aumenta.validate ⟨some e, some c, .DEFAULT, semi⟩ = .ok () := by
  simp [Aumenta.validate, hc, Bind.bind, Except.bind, Pure.pure, Except.pure]

theorem devuelve_validate_empty_gap (e : BaseExpression)
    (w : SimpleWhitespace) (semi : SemicolonOrSentinel) (hw : w.empty = true)
    (hsafe : e.safe_to_use_with_word_operator .RIGHT = false) :
    Devuelve.validate ⟨some e, .ws w, semi⟩ =
      .error "Must have at least one space after 'devuelve'." := by
  simp [Devuelve.validate, hw, hsafe, throw, throwThe, MonadExceptOf.throw]

theorem devuelve_validate_ok_nonempty (e : BaseExpression)
    (w : SimpleWhitespace) (semi : SemicolonOrSentinel) (hw : w.empty = false) :
    Devuelve.validate ⟨some e, .ws w, semi⟩ = .ok () := by
  simp [Devuelve.validate, hw, Pure.pure, Except.pure]

theorem devuelve_validate_ok_sentinel (e : BaseExpression)
    (semi : SemicolonOrSentinel) :
    Devuelve.validate ⟨some e, .DEFAULT, semi⟩ = .ok () := rfl

/-- C2: for a raise-like (`Aumenta`) or return-like (`Devuelve`) node whose
expression child is present and reports it is not safe to sit directly to the
right of a word keyword, construction with an explicit empty whitespace slot
after the keyword fails with the validation error, the same construction with
a non-empty explicit whitespace value succeeds, and a sentinel whitespace
never triggers the check. -/
theorem C2_adjacency_after_keyword (e : BaseExpression) (w : SimpleWhitespace)
    (semi : SemicolonOrSentinel)
    (hsafe : e.safe_to_use_with_word_operator .RIGHT = false) :
    (w.empty = true →
      Aumenta.construct (some e) none (.ws w) semi =
        .error "Must have at least one space after 'aumenta'." ∧
      Devuelve.construct (some e) (.ws w) semi =
        .error "Must have at least one space after 'devuelve'.") ∧
    (w.empty = false →
      Aumenta.construct (some e) none (.ws w) semi =
        .ok ⟨some e, none, .ws w, semi⟩ ∧
      Devuelve.construct (some e) (.ws w) semi =
        .ok ⟨some e, .ws w, semi⟩) ∧
    Aumenta.construct (some e) none .DEFAULT semi =
      .ok ⟨some e, none, .DEFAULT, semi⟩ ∧
    Devuelve.construct (some e) .DEFAULT semi =
      .ok ⟨some e, .DEFAULT, semi⟩ := by
  refine ⟨fun hw => ⟨?_, ?_⟩, fun hw => ⟨?_, ?_⟩, ?_, ?_⟩
  · rw [aumenta_construct_eq, aumenta_validate_empty_gap e w semi hw hsafe]; rfl
  · rw [devuelve_construct_eq, devuelve_validate_empty_gap e w semi hw hsafe]; rfl
  · rw [aumenta_construct_eq, aumenta_validate_ok_nonempty e w semi hw]; rfl
  · rw [devuelve_construct_eq, devuelve_validate_ok_nonempty e w semi hw]; rfl
  · rw [aumenta_construct_eq, aumenta_validate_ok_sentinel e semi]; rfl
  · rw [devuelve_construct_eq, devuelve_validate_ok_sentinel e semi]; rfl

theorem C2_adjacency_after_keyword_witness :
    (Aumenta.construct (some ⟨"x", false, false⟩) none (.ws ⟨""⟩) .DEFAULT =
        .error "Must have at least one space after 'aumenta'.") ∧
    (Devuelve.construct (some ⟨"x", false, false⟩) (.ws ⟨" "⟩) .DEFAULT =
        .ok ⟨some ⟨"x", false, false⟩, .ws ⟨" "⟩, .DEFAULT⟩) := by
  have h1 := C2_adjacency_after_keyword ⟨"x", false, false⟩ ⟨""⟩ .DEFAULT
    (by decide)
  have h2 := C2_adjacency_after_keyword ⟨"x", false, false⟩ ⟨" "⟩ .DEFAULT
    (by decide)
  exact ⟨(h1.1 (by decide)).1, (h2.2.1 (by decide)).2⟩

/-- C3: constructing an `Aumenta` with a cause (from-clause) present but exc
absent fails with the validation error, and every successfully constructed
`Aumenta` has a cause only if it has an exc. -/
theorem C3_cause_requires_exc :
    (∀ (cause : From) (ws : WsOrSentinel) (semi : SemicolonOrSentinel),
      Aumenta.construct none (some cause) ws semi =
        .error "Must have an 'exc' when specifying 'clause'. on Aumenta.") ∧
    ∀ (exc : Option BaseExpression) (cause : Option From) (ws : WsOrSentinel)
      (semi : SemicolonOrSentinel) (a : Aumenta),
      Aumenta.construct exc cause ws semi = .ok a →
      a.cause.isSome = true → a.exc.isSome = true := by
  refine ⟨aumenta_construct_none_some, ?_⟩
  intro exc cause ws semi a h hc
  rw [aumenta_construct_eq] at h
  cases hv : Aumenta.validate ⟨exc, cause, ws, semi⟩ with
  | error msg => rw [hv] at h; exact absurd h (by simp [Except.map])
  | ok u =>
    rw [hv] at h
    simp [Except.map] at h
    cases exc with
    | some e => subst h; rfl
    | none =>
      cases cause with
      | none => subst h; exact absurd hc (by simp)
      | some c => rw [aumenta_validate_no_exc] at hv; exact absurd hv (by simp)

theorem C3_cause_requires_exc_witness :
    (Aumenta.construct none
        (some ⟨⟨"y", false, false⟩, .DEFAULT, .DEFAULT⟩) .DEFAULT .DEFAULT =
      .error "Must have an 'exc' when specifying 'clause'. on Aumenta.") ∧
    (⟨some ⟨"x", false, false⟩, some ⟨⟨"y", false, false⟩, .DEFAULT, .DEFAULT⟩,
        .DEFAULT, .DEFAULT⟩ : Aumenta).exc.isSome = true := by
  refine ⟨C3_cause_requires_exc.1 _ _ _, ?_⟩
  exact C3_cause_requires_exc.2 (some ⟨"x", false, false⟩)
    (some ⟨⟨"y", false, false⟩, .DEFAULT, .DEFAULT⟩) .DEFAULT .DEFAULT _
    rfl (by decide)

/-- C7: for an `Aumenta` with both exc and cause present, an explicit empty
whitespace before `from` together with an exc that is not safe to sit
directly to the left of a word keyword makes construction fail with the
validation error, while a non-empty explicit whitespace or the sentinel does
not make this rule fire. -/
theorem C7_adjacency_before_from (e : BaseExpression) (c : From)
    (semi : SemicolonOrSentinel) :
    (∀ wbf : SimpleWhitespace, c.whitespace_before_from = .ws wbf →
      wbf.empty = true → e.safe_to_use_with_word_operator .LEFT = false →
      Aumenta.construct (some e) (some c) .DEFAULT semi =
        .error "Must have at least one space before 'from'.") ∧
    (∀ wbf : SimpleWhitespace, c.whitespace_before_from = .ws wbf →
      wbf.empty = false →
      Aumenta.construct (some e) (some c) .DEFAULT semi =
        .ok ⟨some e, some c, .DEFAULT, semi⟩) ∧
    (c.whitespace_before_from = .DEFAULT →
      Aumenta.construct (some e) (some c) .DEFAULT semi =
        .ok ⟨some e, some c, .DEFAULT, semi⟩) := by
  refine ⟨fun wbf hc hw hsafe => ?_, fun wbf hc hw => ?_, fun hc => ?_⟩
  · rw [aumenta_construct_eq,
      aumenta_validate_before_from_error e c wbf semi hc hw hsafe]; rfl
  · rw [aumenta_construct_eq,
      aumenta_validate_before_from_ok e c wbf semi hc hw]; rfl
  · rw [aumenta_construct_eq,
      aumenta_validate_before_from_sentinel e c semi hc]; rfl

theorem C7_adjacency_before_from_witness :
    (Aumenta.construct (some ⟨"x", false, false⟩)
        (some ⟨⟨"y", false, false⟩, .ws ⟨""⟩, .DEFAULT⟩) .DEFAULT .DEFAULT =
      .error "Must have at least one space before 'from'.") ∧
    (Aumenta.construct (some ⟨"x", false, false⟩)
        (some ⟨⟨"y", false, false⟩, .ws ⟨" "⟩, .DEFAULT⟩) .DEFAULT .DEFAULT =
      .ok ⟨some ⟨"x", false, false⟩,
        some ⟨⟨"y", false, false⟩, .ws ⟨" "⟩, .DEFAULT⟩, .DEFAULT, .DEFAULT⟩) := by
  have h1 := C7_adjacency_before_from ⟨"x", false, false⟩
    ⟨⟨"y", false, false⟩, .ws ⟨""⟩, .DEFAULT⟩ .DEFAULT
  have h2 := C7_adjacency_before_from ⟨"x", false, false⟩
    ⟨⟨"y", false, false⟩, .ws ⟨" "⟩, .DEFAULT⟩ .DEFAULT
  exact ⟨h1.1 ⟨""⟩ rfl (by decide) (by decide), h2.2.1 ⟨" "⟩ rfl (by decide)⟩

/-- C6: `_visit_and_replace_children` rebuilds the node from the visited slot
values through the validating constructor, so a visitor that removes exc
while cause remains present makes the reconstruction fail with the
validation error instead of silently succeeding. -/
theorem C6_visitor_reconstruction_revalidates (a : Aumenta) (v : Visitor)
    (hexc : visit_optional v.onExpr a.exc = none)
    (c : From) (hcause : visit_optional v.onFrom a.cause = some c) :
    a.visit_and_replace_children v =
      .error "Must have an 'exc' when specifying 'clause'. on Aumenta." := by
  unfold Aumenta.visit_and_replace_children
  rw [hexc, hcause, aumenta_construct_none_some]

theorem C6_visitor_reconstruction_revalidates_witness :
    (⟨some ⟨"x", false, false⟩, some ⟨⟨"y", false, false⟩, .DEFAULT, .DEFAULT⟩,
        .DEFAULT, .DEFAULT⟩ : Aumenta).visit_and_replace_children
      ⟨fun _ => none, fun f => some f, fun w => some w, fun s => some s⟩ =
      .error "Must have an 'exc' when specifying 'clause'. on Aumenta." :=
  C6_visitor_reconstruction_revalidates _ _ rfl _ rfl

end SpanishCST

namespace SpanishCST

theorem aumenta_codegen_eq (exc : Option BaseExpression) (cause : Option From)
    (wsslot : WsOrSentinel) (semi : SemicolonOrSentinel) (st : CodegenState)
    (b : Bool) :
    Aumenta.codegen_impl ⟨exc, cause, wsslot, semi⟩ st b =
      .ok ⟨st.tokens ++
        (["aumenta"] ++
          (match wsslot, exc with
           | .DEFAULT, some _ => [" "]
           | .DEFAULT, none => []
           | .ws w, _ => [w.value]) ++
          (match exc with
           | some e => [e.code]
           | none => []) ++
          (match cause with
           | none => []
           | some c =>
             (match c.whitespace_before_from with
              | .DEFAULT => [" "]
              | .ws w => [w.value]) ++
             ["from"] ++
             (match c.whitespace_after_from with
              | .DEFAULT => [" "]
              | .ws w => [w.value]) ++
             [c.item.code]) ++
          (match semi with
           | .DEFAULT => if b then ["; "] else []
           | .semi s =>
             [s.whitespace_before.value, ";", s.whitespace_after.value]))⟩ := by
  have hcause : ∀ (c : From) (st' : CodegenState),
      From.codegen c st' " " =
        .ok ⟨st'.tokens ++
          ((match c.whitespace_before_from with
            | .DEFAULT => [" "]
            | .ws w => [w.value]) ++
           ["from"] ++
           (match c.whitespace_after_from with
            | .DEFAULT => [" "]
            | .ws w => [w.value]) ++
           [c.item.code])⟩ := by
    intro c st'
    obtain ⟨item, wbf, waf⟩ := c
    cases wbf <;> cases waf <;>
      simp [From.codegen, SimpleWhitespace.codegen, BaseExpression.codegen,
        CodegenState.add_token, Bind.bind, Except.bind, Pure.pure, Except.pure,
        List.append_assoc]
  cases wsslot <;> cases exc <;> cases cause <;> cases semi <;> cases b <;>
    simp [Aumenta.codegen_impl, hcause, Semicolon.codegen,
      SimpleWhitespace.codegen, BaseExpression.codegen, CodegenState.add_token,
      Bind.bind, Except.bind, Pure.pure, Except.pure, List.append_assoc]

end SpanishCST

namespace SpanishCST

theorem devuelve_codegen_eq (value : Option BaseExpression)
    (wsslot : WsOrSentinel) (semi : SemicolonOrSentinel) (st : CodegenState)
    (b : Bool) :
    Devuelve.codegen_impl ⟨value, wsslot, semi⟩ st b =
      .ok ⟨st.tokens ++
        (["devuelve"] ++
          (match wsslot, value with
           | .DEFAULT, some _ => [" "]
           | .DEFAULT, none => []
           | .ws w, _ => [w.value]) ++
          (match value with
           | some v => [v.code]
           | none => []) ++
          (match semi with
           | .DEFAULT => if b then ["; "] else []
           | .semi s =>
             [s.whitespace_before.value, ";", s.whitespace_after.value]))⟩ := by
  cases wsslot <;> cases value <;> cases semi <;> cases b <;>
    simp [Devuelve.codegen_impl, Semicolon.codegen, SimpleWhitespace.codegen,
      BaseExpression.codegen, CodegenState.add_token, Bind.bind, Except.bind,
      Pure.pure, Except.pure, List.append_assoc]

theorem continua_codegen_eq (semi : SemicolonOrSentinel) (st : CodegenState)
    (b : Bool) :
    Continua.codegen_impl ⟨semi⟩ st b =
      .ok ⟨st.tokens ++
        (["continúa"] ++
          (match semi with
           | .DEFAULT => if b then ["; "] else []
           | .semi s =>
             [s.whitespace_before.value, ";", s.whitespace_after.value]))⟩ := by
  cases semi <;> cases b <;>
    simp [Continua.codegen_impl, Semicolon.codegen, SimpleWhitespace.codegen,
      CodegenState.add_token, Bind.bind, Except.bind, Pure.pure, Except.pure,
      List.append_assoc]

theorem rompe_codegen_eq (semi : SemicolonOrSentinel) (st : CodegenState)
    (b : Bool) :
    Rompe.codegen_impl ⟨semi⟩ st b =
      .ok ⟨st.tokens ++
        (["rompe"] ++
          (match semi with
           | .DEFAULT => if b then ["; "] else []
           | .semi s =>
             [s.whitespace_before.value, ";", s.whitespace_after.value]))⟩ := by
  cases semi <;> cases b <;>
    simp [Rompe.codegen_impl, Semicolon.codegen, SimpleWhitespace.codegen,
      CodegenState.add_token, Bind.bind, Except.bind, Pure.pure, Except.pure,
      List.append_assoc]

end SpanishCST

namespace SpanishCST

/-- C4: when the whitespace-after-keyword slot of an `Aumenta` or `Devuelve`
is the sentinel and the expression child is present, rendering emits exactly
one space between the keyword and the expression; when it is the sentinel and
the child is absent, it emits nothing there; when it is a concrete
`SimpleWhitespace`, it emits that value verbatim regardless of what
follows. -/
theorem C4_default_fill_whitespace (exc : Option BaseExpression)
    (cause : Option From) (wsslot : WsOrSentinel) (semi : SemicolonOrSentinel)
    (st : CodegenState) (b : Bool) :
    (∃ tail,
      Aumenta.codegen_impl ⟨exc, cause, wsslot, semi⟩ st b =
        .ok ⟨st.tokens ++ ["aumenta"] ++
          (match wsslot, exc with
           | .DEFAULT, some _ => [" "]
           | .DEFAULT, none => []
           | .ws w, _ => [w.value]) ++
          (match exc with
           | some e => [e.code]
           | none => []) ++ tail⟩) ∧
    ∃ tail,
      Devuelve.codegen_impl ⟨exc, wsslot, semi⟩ st b =
        .ok ⟨st.tokens ++ ["devuelve"] ++
          (match wsslot, exc with
           | .DEFAULT, some _ => [" "]
           | .DEFAULT, none => []
           | .ws w, _ => [w.value]) ++
          (match exc with
           | some e => [e.code]
           | none => []) ++ tail⟩ := by
  constructor
  · simp only [aumenta_codegen_eq, List.append_assoc]
    exact ⟨_, rfl⟩
  · simp only [devuelve_codegen_eq, List.append_assoc]
    exact ⟨_, rfl⟩

/-- C5: for every statement variant, rendering with `default_semicolon = true`
and a sentinel semicolon slot emits the literal `"; "` after the statement
body, with `default_semicolon = false` and a sentinel it emits nothing, and a
concrete `Semicolon` is rendered verbatim regardless of the flag; the body
does not depend on the flag. -/
theorem C5_terminator_slot (n : Stmt) (st : CodegenState) :
    ∃ body, ∀ b : Bool,
      n.codegen_impl st b =
        .ok ⟨st.tokens ++
          (body ++
            (match n.semicolon with
             | .DEFAULT => if b then ["; "] else []
             | .semi s =>
               [s.whitespace_before.value, ";", s.whitespace_after.value]))⟩ := by
  cases n with
  | aumenta a =>
    obtain ⟨exc, cause, wsslot, semi⟩ := a
    refine ⟨["aumenta"] ++
      (match wsslot, exc with
       | .DEFAULT, some _ => [" "]
       | .DEFAULT, none => []
       | .ws w, _ => [w.value]) ++
      (match exc with
       | some e => [e.code]
       | none => []) ++
      (match cause with
       | none => []
       | some c =>
         (match c.whitespace_before_from with
          | .DEFAULT => [" "]
          | .ws w => [w.value]) ++
         ["from"] ++
         (match c.whitespace_after_from with
          | .DEFAULT => [" "]
          | .ws w => [w.value]) ++
         [c.item.code]), fun b => ?_⟩
    rw [Stmt.codegen_impl, aumenta_codegen_eq]
    simp only [Stmt.semicolon, List.append_assoc]
  | continua c =>
    obtain ⟨semi⟩ := c
    refine ⟨["continúa"], fun b => ?_⟩
    rw [Stmt.codegen_impl, continua_codegen_eq]
    simp only [Stmt.semicolon, List.append_assoc]
  | devuelve d =>
    obtain ⟨value, wsslot, semi⟩ := d
    refine ⟨["devuelve"] ++
      (match wsslot, value with
       | .DEFAULT, some _ => [" "]
       | .DEFAULT, none => []
       | .ws w, _ => [w.value]) ++
      (match value with
       | some v => [v.code]
       | none => []), fun b => ?_⟩
    rw [Stmt.codegen_impl, devuelve_codegen_eq]
    simp only [Stmt.semicolon, List.append_assoc]
  | rompe r =>
    obtain ⟨semi⟩ := r
    refine ⟨["rompe"], fun b => ?_⟩
    rw [Stmt.codegen_impl, rompe_codegen_eq]
    simp only [Stmt.semicolon, List.append_assoc]

/-- C8: for every node of every statement variant, every codegen state and
every value of `default_semicolon`, rendering completes without an error (in
particular this holds for every node that passed construction-time
validation). -/
theorem C8_rendering_never_fails (n : Stmt) (st : CodegenState) (b : Bool) :
    ∃ st', n.codegen_impl st b = .ok st' := by
  cases n with
  | aumenta a =>
    obtain ⟨exc, cause, wsslot, semi⟩ := a
    exact ⟨_, aumenta_codegen_eq exc cause wsslot semi st b⟩
  | continua c =>
    obtain ⟨semi⟩ := c
    exact ⟨_, continua_codegen_eq semi st b⟩
  | devuelve d =>
    obtain ⟨value, wsslot, semi⟩ := d
    exact ⟨_, devuelve_codegen_eq value wsslot semi st b⟩
  | rompe r =>
    obtain ⟨semi⟩ := r
    exact ⟨_, rompe_codegen_eq semi st b⟩

/-- C9: for every semicolon slot value and every `default_semicolon` flag, a
`Rompe` and a `Continua` built from the same slot render the same text except
for the keyword token; everything emitted after the keyword is identical. -/
theorem C9_keyword_only_substitution (semi : SemicolonOrSentinel)
    (st : CodegenState) (b : Bool) :
    ∃ tail,
      Rompe.codegen_impl ⟨semi⟩ st b =
        .ok ⟨st.tokens ++ (["rompe"] ++ tail)⟩ ∧
      Continua.codegen_impl ⟨semi⟩ st b =
        .ok ⟨st.tokens ++ (["continúa"] ++ tail)⟩ :=
  ⟨_, rompe_codegen_eq semi st b, continua_codegen_eq semi st b⟩

/-- C10: rendering is append-only on the shared accumulator — for every
statement variant, node, state and flag, the tokens present before the call
are an unchanged prefix of the tokens after the call. -/
theorem C10_append_only (n : Stmt) (st : CodegenState) (b : Bool)
    (st' : CodegenState) (h : n.codegen_impl st b = .ok st') :
    ∃ ts, st'.tokens = st.tokens ++ ts := by
  cases n with
  | aumenta a =>
    obtain ⟨exc, cause, wsslot, semi⟩ := a
    rw [Stmt.codegen_impl, aumenta_codegen_eq] at h
    injection h with h'
    rw [← h']
    exact ⟨_, rfl⟩
  | continua c =>
    obtain ⟨semi⟩ := c
    rw [Stmt.codegen_impl, continua_codegen_eq] at h
    injection h with h'
    rw [← h']
    exact ⟨_, rfl⟩
  | devuelve d =>
    obtain ⟨value, wsslot, semi⟩ := d
    rw [Stmt.codegen_impl, devuelve_codegen_eq] at h
    injection h with h'
    rw [← h']
    exact ⟨_, rfl⟩
  | rompe r =>
    obtain ⟨semi⟩ := r
    rw [Stmt.codegen_impl, rompe_codegen_eq] at h
    injection h with h'
    rw [← h']
    exact ⟨_, rfl⟩

theorem C10_append_only_witness :
    ∃ ts, (⟨["x", "rompe"]⟩ : CodegenState).tokens =
      (⟨["x"]⟩ : CodegenState).tokens ++ ts :=
  C10_append_only (.rompe ⟨.DEFAULT⟩) ⟨["x"]⟩ false ⟨["x", "rompe"]⟩ rfl

end SpanishCST

namespace SpanishCST

theorem takeWhile_dropWhile_eq {p : Char → Bool} (l : List Char) :
    l.takeWhile p ++ l.dropWhile p = l :=
  List.takeWhile_append_dropWhile p l

theorem mk_empty_false {w : List Char} (hw : w ≠ []) :
    (SimpleWhitespace.mk (String.mk w)).empty = false := by
  simp only [SimpleWhitespace.empty]
  have : String.mk w ≠ "" := by
    intro h
    exact hw (congrArg String.data h)
  simp [this]

theorem parseSemiOpt_cases {cs : List Char} {semi : SemicolonOrSentinel}
    (h : parseSemiOpt cs = some semi) :
    (cs = [] ∧ semi = .DEFAULT) ∨
    ∃ a b, cs = a ++ ';' :: b ∧
      semi = .semi ⟨⟨String.mk a⟩, ⟨String.mk b⟩⟩ := by
  cases cs with
  | nil =>
    left
    exact ⟨rfl, (Option.some.inj h).symm⟩
  | cons x xs =>
    right
    simp only [parseSemiOpt] at h
    split at h
    next c r2 hdw =>
      split at h
      next hc =>
        split at h
        next h3 =>
          refine ⟨(x :: xs).takeWhile isWsChar, r2.takeWhile isWsChar, ?_,
            (Option.some.inj h).symm⟩
          have hr2 : r2.takeWhile isWsChar = r2 := by
            have h4 := takeWhile_dropWhile_eq (p := isWsChar) r2
            rw [h3, List.append_nil] at h4
            exact h4
          rw [hr2, ← hc, ← hdw, takeWhile_dropWhile_eq]
        next h3 => cases h
      next hc => cases h
    next hdw => cases h

end SpanishCST

namespace SpanishCST

theorem aumenta_validate_ok_none (semi : SemicolonOrSentinel) :
    Aumenta.validate ⟨none, none, .DEFAULT, semi⟩ = .ok () := rfl

theorem devuelve_validate_ok_none (semi : SemicolonOrSentinel) :
    Devuelve.validate ⟨none, .DEFAULT, semi⟩ = .ok () := rfl

theorem aumenta_validate_ok_full (e : BaseExpression) (c : From)
    (w wbf : SimpleWhitespace) (semi : SemicolonOrSentinel)
    (hc : c.whitespace_before_from = .ws wbf)
    (hw : w.empty = false) (hwbf : wbf.empty = false) :
    Aumenta.validate ⟨some e, some c, .ws w, semi⟩ = .ok () := by
  simp [Aumenta.validate, hc, hw, hwbf, Bind.bind, Except.bind, Pure.pure,
    Except.pure]

theorem construct_toOption_aumenta {exc : Option BaseExpression}
    {cause : Option From} {ws : WsOrSentinel} {semi : SemicolonOrSentinel}
    {a : Aumenta}
    (hval : Aumenta.validate ⟨exc, cause, ws, semi⟩ = .ok ())
    (h : (Aumenta.construct exc cause ws semi).toOption = some a) :
    a = ⟨exc, cause, ws, semi⟩ := by
  rw [aumenta_construct_eq, hval] at h
  exact (Option.some.inj h).symm

theorem construct_toOption_devuelve {value : Option BaseExpression}
    {ws : WsOrSentinel} {semi : SemicolonOrSentinel} {d : Devuelve}
    (hval : Devuelve.validate ⟨value, ws, semi⟩ = .ok ())
    (h : (Devuelve.construct value ws semi).toOption = some d) :
    d = ⟨value, ws, semi⟩ := by
  rw [devuelve_construct_eq, hval] at h
  exact (Option.some.inj h).symm

theorem parseAumentaCause_sound {w1 e w2 r4 : List Char} {a : Aumenta}
    (hw1 : w1 ≠ []) (hw2 : w2 ≠ [])
    (h : parseAumentaCause w1 e w2 r4 = some a) :
    render_to_string (.aumenta a) =
      .ok ("aumenta".data ++ w1 ++ e ++ w2 ++ "from".data ++ r4) := by
  rw [parseAumentaCause] at h
  by_cases h1 : r4.takeWhile isWsChar = []
  · rw [if_pos h1] at h; cases h
  rw [if_neg h1] at h
  by_cases h2 : (r4.dropWhile isWsChar).takeWhile isIdentChar = []
  · rw [if_pos h2] at h; cases h
  rw [if_neg h2] at h
  rcases hsem : parseSemiOpt ((r4.dropWhile isWsChar).dropWhile isIdentChar)
    with _ | semi <;> rw [hsem] at h
  · cases h
  have hval := aumenta_validate_ok_full ⟨String.mk e, false, false⟩
    ⟨⟨String.mk ((r4.dropWhile isWsChar).takeWhile isIdentChar), false, false⟩,
      .ws ⟨String.mk w2⟩, .ws ⟨String.mk (r4.takeWhile isWsChar)⟩⟩
    ⟨String.mk w1⟩ ⟨String.mk w2⟩ semi rfl (mk_empty_false hw1)
    (mk_empty_false hw2)
  have ha := construct_toOption_aumenta hval h
  subst ha
  simp only [render_to_string, Stmt.codegen_impl]
  rw [aumenta_codegen_eq]
  rcases parseSemiOpt_cases hsem with ⟨hnil, rfl⟩ | ⟨sa, sb, hdec, rfl⟩
  · have hr4 : r4.takeWhile isWsChar ++
        (r4.dropWhile isWsChar).takeWhile isIdentChar = r4 := by
      conv_rhs => rw [← takeWhile_dropWhile_eq (p := isWsChar) r4,
        ← takeWhile_dropWhile_eq (p := isIdentChar) (r4.dropWhile isWsChar),
        hnil]
      rw [List.append_nil]
    simp only [Except.map, CodegenState.output, List.map_append, List.map_cons,
      List.map_nil, List.flatten_append, List.flatten_cons, List.flatten_nil,
      List.append_nil, List.nil_append, Bool.false_eq_true, if_false]
    simp only [List.append_assoc]
    rw [hr4]
  · have hr4 : r4.takeWhile isWsChar ++
        ((r4.dropWhile isWsChar).takeWhile isIdentChar ++ (sa ++ ';' :: sb)) =
        r4 := by
      conv_rhs => rw [← takeWhile_dropWhile_eq (p := isWsChar) r4,
        ← takeWhile_dropWhile_eq (p := isIdentChar) (r4.dropWhile isWsChar),
        hdec]
    have hsc : (";" : String).data = [';'] := rfl
    simp only [Except.map, CodegenState.output, List.map_append, List.map_cons,
      List.map_nil, List.flatten_append, List.flatten_cons, List.flatten_nil,
      List.append_nil, List.nil_append, hsc]
    simp only [List.append_assoc, List.cons_append, List.nil_append,
      List.singleton_append]
    rw [hr4]

end SpanishCST

namespace SpanishCST

theorem parseAumentaFrom_sound {w1 e r2 : List Char} {a : Aumenta}
    (hw1 : w1 ≠ []) (h : parseAumentaFrom w1 e r2 = some a) :
    render_to_string (.aumenta a) = .ok ("aumenta".data ++ w1 ++ e ++ r2) := by
  rw [parseAumentaFrom] at h
  by_cases hf : (r2.dropWhile isWsChar).takeWhile isIdentChar = "from".data
  · rw [if_pos hf] at h
    by_cases hw2 : r2.takeWhile isWsChar = []
    · rw [if_pos hw2] at h; cases h
    rw [if_neg hw2] at h
    rw [parseAumentaCause_sound hw1 hw2 h]
    have hr2 : r2.takeWhile isWsChar ++ ("from".data ++
        ((r2.dropWhile isWsChar).dropWhile isIdentChar)) = r2 := by
      conv_rhs => rw [← takeWhile_dropWhile_eq (p := isWsChar) r2,
        ← takeWhile_dropWhile_eq (p := isIdentChar) (r2.dropWhile isWsChar),
        hf]
    simp only [List.append_assoc]
    rw [hr2]
  · rw [if_neg hf] at h
    by_cases hf0 : (r2.dropWhile isWsChar).takeWhile isIdentChar = []
    · rw [if_pos hf0] at h
      rcases hsem : parseSemiOpt r2 with _ | semi <;> rw [hsem] at h
      · cases h
      have hval := aumenta_validate_ok_nonempty ⟨String.mk e, false, false⟩
        ⟨String.mk w1⟩ semi (mk_empty_false hw1)
      have ha := construct_toOption_aumenta hval h
      subst ha
      simp only [render_to_string, Stmt.codegen_impl]
      rw [aumenta_codegen_eq]
      rcases parseSemiOpt_cases hsem with ⟨rfl, rfl⟩ | ⟨sa, sb, hdec, rfl⟩
      · simp [Except.map, CodegenState.output]
      · subst hdec
        have hsc : (";" : String).data = [';'] := rfl
        simp [Except.map, CodegenState.output, hsc, List.append_assoc]
    · rw [if_neg hf0] at h; cases h

theorem parseAumentaRest_sound {cs : List Char} {a : Aumenta}
    (h : parseAumentaRest cs = some a) :
    render_to_string (.aumenta a) = .ok ("aumenta".data ++ cs) := by
  cases cs with
  | nil =>
    have ha := construct_toOption_aumenta (aumenta_validate_ok_none .DEFAULT) h
    subst ha
    simp [render_to_string, Stmt.codegen_impl, aumenta_codegen_eq, Except.map,
      CodegenState.output]
  | cons x xs =>
    simp only [parseAumentaRest] at h
    by_cases he : ((x :: xs).dropWhile isWsChar).takeWhile isIdentChar = []
    · rw [if_pos he] at h
      rcases hsem : parseSemiOpt (x :: xs) with _ | semi <;> rw [hsem] at h
      · cases h
      have ha := construct_toOption_aumenta (aumenta_validate_ok_none semi) h
      subst ha
      simp only [render_to_string, Stmt.codegen_impl]
      rw [aumenta_codegen_eq]
      rcases parseSemiOpt_cases hsem with ⟨hx, rfl⟩ | ⟨sa, sb, hdec, rfl⟩
      · cases hx
      · rw [hdec]
        have hsc : (";" : String).data = [';'] := rfl
        simp [Except.map, CodegenState.output, hsc, List.append_assoc]
    · rw [if_neg he] at h
      by_cases hw1 : (x :: xs).takeWhile isWsChar = []
      · rw [if_pos hw1] at h; cases h
      rw [if_neg hw1] at h
      rw [parseAumentaFrom_sound hw1 h]
      have hcs : (x :: xs).takeWhile isWsChar ++
          (((x :: xs).dropWhile isWsChar).takeWhile isIdentChar ++
            ((x :: xs).dropWhile isWsChar).dropWhile isIdentChar) =
          x :: xs := by
        conv_rhs => rw [← takeWhile_dropWhile_eq (p := isWsChar) (x :: xs),
          ← takeWhile_dropWhile_eq (p := isIdentChar)
            ((x :: xs).dropWhile isWsChar)]
      simp only [List.append_assoc]
      rw [hcs]

end SpanishCST

namespace SpanishCST

theorem parseDevuelveRest_sound {cs : List Char} {d : Devuelve}
    (h : parseDevuelveRest cs = some d) :
    render_to_string (.devuelve d) = .ok ("devuelve".data ++ cs) := by
  cases cs with
  | nil =>
    have hd := construct_toOption_devuelve (devuelve_validate_ok_none .DEFAULT) h
    subst hd
    simp [render_to_string, Stmt.codegen_impl, devuelve_codegen_eq, Except.map,
      CodegenState.output]
  | cons x xs =>
    simp only [parseDevuelveRest] at h
    by_cases he : ((x :: xs).dropWhile isWsChar).takeWhile isIdentChar = []
    · rw [if_pos he] at h
      rcases hsem : parseSemiOpt (x :: xs) with _ | semi <;> rw [hsem] at h
      · cases h
      have hd := construct_toOption_devuelve (devuelve_validate_ok_none semi) h
      subst hd
      simp only [render_to_string, Stmt.codegen_impl]
      rw [devuelve_codegen_eq]
      rcases parseSemiOpt_cases hsem with ⟨hx, rfl⟩ | ⟨sa, sb, hdec, rfl⟩
      · cases hx
      · rw [hdec]
        have hsc : (";" : String).data = [';'] := rfl
        simp [Except.map, CodegenState.output, hsc, List.append_assoc]
    · rw [if_neg he] at h
      by_cases hw : (x :: xs).takeWhile isWsChar = []
      · rw [if_pos hw] at h; cases h
      rw [if_neg hw] at h
      rcases hsem :
          parseSemiOpt (((x :: xs).dropWhile isWsChar).dropWhile isIdentChar)
        with _ | semi <;> rw [hsem] at h
      · cases h
      have hval := devuelve_validate_ok_nonempty
        ⟨String.mk (((x :: xs).dropWhile isWsChar).takeWhile isIdentChar),
          false, false⟩
        ⟨String.mk ((x :: xs).takeWhile isWsChar)⟩ semi (mk_empty_false hw)
      have hd := construct_toOption_devuelve hval h
      subst hd
      simp only [render_to_string, Stmt.codegen_impl]
      rw [devuelve_codegen_eq]
      rcases parseSemiOpt_cases hsem with ⟨hnil, rfl⟩ | ⟨sa, sb, hdec, rfl⟩
      · have hcs : (x :: xs).takeWhile isWsChar ++
            ((x :: xs).dropWhile isWsChar).takeWhile isIdentChar = x :: xs := by
          conv_rhs => rw [← takeWhile_dropWhile_eq (p := isWsChar) (x :: xs),
            ← takeWhile_dropWhile_eq (p := isIdentChar)
              ((x :: xs).dropWhile isWsChar),
            hnil]
          rw [List.append_nil]
        simp only [Except.map, CodegenState.output, List.map_append,
          List.map_cons, List.map_nil, List.flatten_append, List.flatten_cons,
          List.flatten_nil, List.append_nil, List.nil_append,
          Bool.false_eq_true, if_false]
        simp only [List.append_assoc]
        rw [hcs]
      · have hcs : (x :: xs).takeWhile isWsChar ++
            (((x :: xs).dropWhile isWsChar).takeWhile isIdentChar ++
              (sa ++ ';' :: sb)) = x :: xs := by
          conv_rhs => rw [← takeWhile_dropWhile_eq (p := isWsChar) (x :: xs),
            ← takeWhile_dropWhile_eq (p := isIdentChar)
              ((x :: xs).dropWhile isWsChar),
            hdec]
        have hsc : (";" : String).data = [';'] := rfl
        simp only [Except.map, CodegenState.output, List.map_append,
          List.map_cons, List.map_nil, List.flatten_append, List.flatten_cons,
          List.flatten_nil, List.append_nil, List.nil_append, hsc]
        simp only [List.append_assoc, List.cons_append, List.nil_append,
          List.singleton_append]
        rw [hcs]

theorem parseContinuaRest_sound {cs : List Char} {c : Continua}
    (h : parseContinuaRest cs = some c) :
    render_to_string (.continua c) = .ok ("continúa".data ++ cs) := by
  rw [parseContinuaRest] at h
  rcases hsem : parseSemiOpt cs with _ | semi <;> rw [hsem] at h
  · cases h
  have hc : c = ⟨semi⟩ := (Option.some.inj h).symm
  subst hc
  simp only [render_to_string, Stmt.codegen_impl]
  rw [continua_codegen_eq]
  rcases parseSemiOpt_cases hsem with ⟨rfl, rfl⟩ | ⟨sa, sb, hdec, rfl⟩
  · simp [Except.map, CodegenState.output]
  · rw [hdec]
    have hsc : (";" : String).data = [';'] := rfl
    simp [Except.map, CodegenState.output, hsc, List.append_assoc]

theorem parseRompeRest_sound {cs : List Char} {r : Rompe}
    (h : parseRompeRest cs = some r) :
    render_to_string (.rompe r) = .ok ("rompe".data ++ cs) := by
  rw [parseRompeRest] at h
  rcases hsem : parseSemiOpt cs with _ | semi <;> rw [hsem] at h
  · cases h
  have hr : r = ⟨semi⟩ := (Option.some.inj h).symm
  subst hr
  simp only [render_to_string, Stmt.codegen_impl]
  rw [rompe_codegen_eq]
  rcases parseSemiOpt_cases hsem with ⟨rfl, rfl⟩ | ⟨sa, sb, hdec, rfl⟩
  · simp [Except.map, CodegenState.output]
  · rw [hdec]
    have hsc : (";" : String).data = [';'] := rfl
    simp [Except.map, CodegenState.output, hsc, List.append_assoc]

end SpanishCST

namespace SpanishCST

/-- C1: round-trip identity — for every source text accepted by the modelled
parser, rendering the parsed tree reproduces the text byte for byte when the
tree is not modified between parse and render. -/
theorem C1_round_trip (cs : List Char) (n : Stmt) (h : parse cs = some n) :
    render_to_string n = .ok cs := by
  rw [parse] at h
  by_cases h1 : cs.take 7 = "aumenta".data
  · rw [if_pos h1] at h
    rcases hm : parseAumentaRest (cs.drop 7) with _ | a <;> rw [hm] at h
    · cases h
    obtain rfl : Stmt.aumenta a = n := by simpa using h
    rw [parseAumentaRest_sound hm, ← h1, List.take_append_drop]
  rw [if_neg h1] at h
  by_cases h2 : cs.take 8 = "continúa".data
  · rw [if_pos h2] at h
    rcases hm : parseContinuaRest (cs.drop 8) with _ | c <;> rw [hm] at h
    · cases h
    obtain rfl : Stmt.continua c = n := by simpa using h
    rw [parseContinuaRest_sound hm, ← h2, List.take_append_drop]
  rw [if_neg h2] at h
  by_cases h3 : cs.take 8 = "devuelve".data
  · rw [if_pos h3] at h
    rcases hm : parseDevuelveRest (cs.drop 8) with _ | d <;> rw [hm] at h
    · cases h
    obtain rfl : Stmt.devuelve d = n := by simpa using h
    rw [parseDevuelveRest_sound hm, ← h3, List.take_append_drop]
  rw [if_neg h3] at h
  by_cases h4 : cs.take 5 = "rompe".data
  · rw [if_pos h4] at h
    rcases hm : parseRompeRest (cs.drop 5) with _ | r <;> rw [hm] at h
    · cases h
    obtain rfl : Stmt.rompe r = n := by simpa using h
    rw [parseRompeRest_sound hm, ← h4, List.take_append_drop]
  rw [if_neg h4] at h
  cases h

theorem C1_round_trip_witness :
    parse "aumenta x from y ;".data =
      some (.aumenta ⟨some ⟨"x", false, false⟩,
        some ⟨⟨"y", false, false⟩, .ws ⟨" "⟩, .ws ⟨" "⟩⟩, .ws ⟨" "⟩,
        .semi ⟨⟨" "⟩, ⟨""⟩⟩⟩) ∧
    render_to_string (.aumenta ⟨some ⟨"x", false, false⟩,
        some ⟨⟨"y", false, false⟩, .ws ⟨" "⟩, .ws ⟨" "⟩⟩, .ws ⟨" "⟩,
        .semi ⟨⟨" "⟩, ⟨""⟩⟩⟩) = .ok "aumenta x from y ;".data :=
  ⟨by decide, C1_round_trip _ _ (by decide)⟩

end SpanishCST
